import Mathlib

/-!
Shallow embedding of the LeatherPatcher stepper controller
(src/LeatherPatcher.ino) and proofs about its control loop.

Modelling conventions:
- The Arduino millisecond clock (millis, unsigned long) is modelled as a
  natural number.  Unsigned subtraction of timestamps is modelled by
  truncated natural subtraction; the two agree on every run in which time
  is nondecreasing and all stored timestamps are in the past, which is the
  situation in the sketch (the 49.7-day unsigned wrap is out of scope).
- C float and double arithmetic is modelled exactly: the normalization
  pipeline with rationals, and the input-curve / virtual-position pipeline
  with real numbers (the logarithmic curve is transcendental).  A float
  division whose denominator is zero produces NaN; in normalizeADC this can
  only be the 0/0 case, which is modelled by an Option result (none = NaN,
  because NaN fails both clamp comparisons and is returned unchanged).
- The compile-time configuration macros (ANALOG_MIN_COUNTS, ...) are
  gathered into a Config structure; defaultConfig holds the values in the
  source.  Code that reads a macro reads the corresponding Config field.
- The AccelStepper and RunningAverage libraries are outside collaborators
  (they are not part of this repository).  They are modelled through their
  contracts: the filtered sample and the current stepper position enter
  each loop iteration as inputs, stepper.moveTo sets the commanded target,
  and stepper.stop cancels pending motion (modelled as commanding the
  current position, i.e. zero net commanded motion).
- A C cast from a floating value to an integer truncates toward zero;
  truncQ / truncToInt below implement that.
-/

namespace LeatherPatcher

/-- Pedal zone, the three-way classification made by the if/else-if/else
chain at lines 260-281 of the sketch. -/
inductive Zone where
  | STOP
  | HOLD
  | THROTTLE
deriving DecidableEq

/-- The compile-time configuration macros of the sketch. -/
structure Config where
  maxSpeed : ℕ      -- MAX_SPEED_SPS
  controlHz : ℕ     -- CONTROL_HZ
  calibMin : ℤ      -- ANALOG_MIN_COUNTS
  calibMax : ℤ      -- ANALOG_MAX_COUNTS
  reversed : Bool   -- ANALOG_REVERSED
  deadband : ℤ      -- ANALOG_DEADBAND_COUNTS
  holdBand : ℤ      -- HOLD_BAND_COUNTS
  inputCurve : ℕ    -- INPUT_CURVE
  logK : ℝ          -- LOG_CURVE_K
  armDelay : ℕ      -- ARM_DELAY_MS
  disableDelay : ℕ  -- DISABLE_DELAY_MS

/-- The configuration values in the USER CONFIGURATION section of the
sketch. -/
def defaultConfig : Config :=
  { maxSpeed := 4000
    controlHz := 100
    calibMin := 10
    calibMax := 1010
    reversed := false
    deadband := 20
    holdBand := 60
    inputCurve := 2
    logK := 20
    armDelay := 500
    disableDelay := 100 }

/-- The arming threshold max((int)ARM_DELAY_MS, 250) used at line 237. -/
def armThresh (cfg : Config) : ℕ := max cfg.armDelay 250

/-- controlInterval = 1000UL / CONTROL_HZ (line 122). -/
def controlInterval (cfg : Config) : ℕ := 1000 / cfg.controlHz

/-- Truncation toward zero of a rational, the effect of a C cast from a
float value to int. -/
def truncQ (q : ℚ) : ℤ := if 0 ≤ q then ⌊q⌋ else ⌈q⌉

/-- Truncation toward zero of a real, the effect of a C cast from a double
value to long. -/
noncomputable def truncToInt (x : ℝ) : ℤ := if 0 ≤ x then ⌊x⌋ else ⌈x⌉

/-- normalizeADC (lines 134-144): clamp the raw sample to the calibration
bounds, scale linearly, optionally reverse, and clamp to [0,1].  Exact
rational model of the float arithmetic.  When the calibration bounds are
equal the float code computes 0.0/0.0 = NaN (the clamped sample equals both
bounds, so numerator and denominator are both zero), and NaN falls through
both clamp comparisons and is returned; that case is modelled as none. -/
def normalizeADC (raw calibMin calibMax : ℤ) (reversed : Bool) : Option ℚ :=
  let r1 : ℤ := if raw < calibMin then calibMin else raw
  let r2 : ℤ := if r1 > calibMax then calibMax else r1
  if calibMax = calibMin then
    none
  else
    let u0 : ℚ := ((r2 - calibMin : ℤ) : ℚ) / ((calibMax - calibMin : ℤ) : ℚ)
    let u1 : ℚ := if reversed then 1 - u0 else u0
    let u2 : ℚ := if u1 < 0 then 0 else u1
    let u3 : ℚ := if u2 > 1 then 1 else u2
    some u3

/-- applyCurve (lines 147-158): input curve selected by INPUT_CURVE.
case 1 = quadratic, case 2 = logarithmic with steepness k, default =
linear.  A pure function of its input, exactly as in the source. -/
noncomputable def applyCurve (curveKind : ℕ) (k : ℝ) (u : ℝ) : ℝ :=
  match curveKind with
  | 1 => u * u
  | 2 => Real.log (1 + k * u) / Real.log (1 + k)
  | _ => u

/-- The normalized pedal value used by the control block:
u = normalizeADC(filteredADC) (line 257).  The none (NaN) case cannot occur
for any configuration with distinct calibration bounds; it is defaulted to
0 to keep the function total. -/
def uOf (cfg : Config) (filtered : ℤ) : ℚ :=
  (normalizeADC filtered cfg.calibMin cfg.calibMax cfg.reversed).getD 0

/-- scaledADC = (int)(u * 1023) (line 258). -/
def scaledOf (cfg : Config) (filtered : ℤ) : ℤ := truncQ (uOf cfg filtered * 1023)

/-- The zone decided by the if/else-if/else chain at lines 260-281:
scaled <= deadband is the stop zone, otherwise scaled <= holdBand is the
hold zone, otherwise the throttle zone. -/
def classifyZone (cfg : Config) (scaled : ℤ) : Zone :=
  if scaled ≤ cfg.deadband then Zone.STOP
  else if scaled ≤ cfg.holdBand then Zone.HOLD
  else Zone.THROTTLE

/-- The zone of a filtered sample after normalization and rescaling. -/
def zoneOf (cfg : Config) (filtered : ℤ) : Zone :=
  classifyZone cfg (scaledOf cfg filtered)

/-- The mutable state of the sketch: the globals at lines 116-126, the
ENABLE pin latch, the LED pin latch, the static accumulator virtualPos
(line 289) and the last target commanded to the stepper library. -/
structure St where
  armed : Bool              -- armed (line 116)
  armStart : ℕ              -- armStart (line 117), 0 = unset
  disableStart : ℕ          -- disableStart (line 118), 0 = unset
  lastControlUpdate : ℕ     -- lastControlUpdate (line 121)
  lastLED : ℕ               -- lastLED (line 125)
  ledState : Bool           -- ledState (line 126)
  led : Bool                -- level written to LED_PIN
  enableHigh : Bool         -- level written to ENABLE_PIN (true = HIGH = driver disabled)
  target : ℤ                -- last target commanded to the stepper library
  virtualPos : ℝ            -- static double virtualPos (line 289)

/-- The state after setup() (lines 195-218): globals all start at zero,
ENABLE_PIN is driven HIGH (driver disabled), LED low. -/
def initSt : St :=
  { armed := false
    armStart := 0
    disableStart := 0
    lastControlUpdate := 0
    lastLED := 0
    ledState := false
    led := false
    enableHigh := true
    target := 0
    virtualPos := 0 }

/-- The per-iteration inputs of loop(): the clock (millis), the raw analog
sample, the filtered sample produced by the RunningAverage library this
iteration, and the current position held by the stepper library. -/
structure Inp where
  now : ℕ
  raw : ℤ
  filtered : ℤ
  pos : ℤ

/-- updateLED (lines 161-189).  Reads the armed flag and the three zone
flags of the current iteration, drives LED_PIN and maintains the blink
timer lastLED / ledState. -/
def updateLED (s : St) (now : ℕ) (running inHold inDeadband : Bool) : St :=
  if s.armed = false then
    -- startup/arming: slow blink 1 Hz
    if 500 ≤ now - s.lastLED then
      { s with ledState := !s.ledState, led := !s.ledState, lastLED := now }
    else s
  else if running = true then
    { s with led := true }            -- solid on
  else if inHold = true then
    -- hold band: blink 2 Hz
    if 250 ≤ now - s.lastLED then
      { s with ledState := !s.ledState, led := !s.ledState, lastLED := now }
    else s
  else if inDeadband = true then
    -- armed but pedal at stop: double blink
    if now % 1000 < 100 ∨ (200 ≤ now % 1000 ∧ now % 1000 < 300) then
      { s with led := true }
    else
      { s with led := false }
  else
    { s with led := false }

/-- One iteration of loop() (lines 224-300).  The unarmed branch performs
the arming logic on the raw sample, stops the stepper and keeps the driver
disabled.  The armed branch runs the zone logic at the control rate and
otherwise only services the stepper and the LED. -/
noncomputable def loopStep (cfg : Config) (s : St) (x : Inp) : St :=
  if s.armed = false then
    -- safety: arming at startup (lines 233-247)
    let s1 : St :=
      if x.raw ≤ cfg.deadband then
        if s.armStart = 0 then { s with armStart := x.now }
        else if armThresh cfg ≤ x.now - s.armStart then { s with armed := true }
        else s
      else { s with armStart := 0 }
    -- stepper.stop(); digitalWrite(ENABLE_PIN, HIGH)
    let s2 : St := { s1 with target := x.pos, enableHigh := true }
    updateLED s2 x.now false false false
  else
    -- the flags inDeadband/inHold/running (lines 249-251) start false each
    -- iteration and are set only by the taken zone branch; stepper.run()
    -- (line 296) only advances library-internal pulse state, and updateLED
    -- (line 299) runs once at the end of the iteration with those flags.
    -- The single trailing updateLED call is therefore inlined per branch.
    if controlInterval cfg ≤ x.now - s.lastControlUpdate then
      let s0 : St := { s with lastControlUpdate := x.now }
      if scaledOf cfg x.filtered ≤ cfg.deadband then
        -- zone 1: zero deadband -> disable driver after DISABLE_DELAY_MS
        let s1 : St :=
          if s0.disableStart = 0 then { s0 with disableStart := x.now }
          else if cfg.disableDelay ≤ x.now - s0.disableStart then
            { s0 with enableHigh := true, target := x.pos }  -- disable driver; stepper.stop()
          else s0
        updateLED s1 x.now false false true
      else if scaledOf cfg x.filtered ≤ cfg.holdBand then
        -- zone 2: hold band -> enable driver, lock position
        updateLED { s0 with disableStart := 0, enableHigh := false, target := x.pos }
          x.now false true false
      else
        -- zone 3: throttle
        let curved : ℝ := applyCurve cfg.inputCurve cfg.logK ((uOf cfg x.filtered : ℚ) : ℝ)
        let vp : ℝ := s.virtualPos + curved * (cfg.maxSpeed : ℝ) / (cfg.controlHz : ℝ)
        updateLED { s0 with disableStart := 0, enableHigh := false,
                            virtualPos := vp, target := truncToInt vp }
          x.now true false false
    else
      updateLED s x.now false false false

/-- Run n iterations of loop() from state s, feeding iteration m the
inputs inp m. -/
noncomputable def runFrom (cfg : Config) (inp : ℕ → Inp) (s : St) : ℕ → St
  | 0 => s
  | n + 1 => loopStep cfg (runFrom cfg inp s n) (inp n)

/-- A continuous stop-hold window inside the first n samples: samples i..j
are all at or below the deadband and they span at least the arming
threshold. -/
def ArmWindow (cfg : Config) (inp : ℕ → Inp) (n : ℕ) : Prop :=
  ∃ i j, i < j ∧ j < n ∧
    (∀ m, i ≤ m → m ≤ j → (inp m).raw ≤ cfg.deadband) ∧
    armThresh cfg ≤ (inp j).now - (inp i).now

/-- An armed state used as the start state of several concrete runs. -/
def stArmed : St := { initSt with armed := true }

/-- Input trace of the drive-enable counterexample run: the pedal is held
at stop; the controller arms at the second iteration and takes its first
armed control tick at the third. -/
def cexInp (n : ℕ) : Inp :=
  if n = 0 then { now := 250, raw := 0, filtered := 0, pos := 0 }
  else if n = 1 then { now := 750, raw := 0, filtered := 0, pos := 0 }
  else { now := 760, raw := 0, filtered := 0, pos := 0 }

/-- A concrete armed state whose disable-hold timer is running (set at
time 5). -/
def stArmedD : St := { stArmed with disableStart := 5 }

/-- Input trace for the arming witness: stop-hold samples 500 ms apart. -/
def wArmInp (n : ℕ) : Inp := { now := 250 + 500 * n, raw := 0, filtered := 0, pos := 0 }

/-- Input trace of the full-throttle scenario: one control tick every
10 ms with the pedal fully pressed (filtered sample 1010). -/
def fullInp (n : ℕ) : Inp := { now := 10 * (n + 1), raw := 1023, filtered := 1010, pos := 0 }

-- ---------------------------------------------------------------------
-- Helper lemmas
-- ---------------------------------------------------------------------

@[simp] theorem updateLED_armed (s : St) (now : ℕ) (r h d : Bool) :
    (updateLED s now r h d).armed = s.armed := by
  unfold updateLED; split_ifs <;> rfl

@[simp] theorem updateLED_armStart (s : St) (now : ℕ) (r h d : Bool) :
    (updateLED s now r h d).armStart = s.armStart := by
  unfold updateLED; split_ifs <;> rfl

@[simp] theorem updateLED_disableStart (s : St) (now : ℕ) (r h d : Bool) :
    (updateLED s now r h d).disableStart = s.disableStart := by
  unfold updateLED; split_ifs <;> rfl

@[simp] theorem updateLED_lastControlUpdate (s : St) (now : ℕ) (r h d : Bool) :
    (updateLED s now r h d).lastControlUpdate = s.lastControlUpdate := by
  unfold updateLED; split_ifs <;> rfl

@[simp] theorem updateLED_enableHigh (s : St) (now : ℕ) (r h d : Bool) :
    (updateLED s now r h d).enableHigh = s.enableHigh := by
  unfold updateLED; split_ifs <;> rfl

@[simp] theorem updateLED_target (s : St) (now : ℕ) (r h d : Bool) :
    (updateLED s now r h d).target = s.target := by
  unfold updateLED; split_ifs <;> rfl

@[simp] theorem updateLED_virtualPos (s : St) (now : ℕ) (r h d : Bool) :
    (updateLED s now r h d).virtualPos = s.virtualPos := by
  unfold updateLED; split_ifs <;> rfl

theorem updateLED_of_armed_flags_false (s : St) (now : ℕ) (h : s.armed = true) :
    updateLED s now false false false = { s with led := false } := by
  unfold updateLED
  simp [h]

-- loopStep branch equations: unarmed branch (lines 233-247)

theorem loopStep_unarmed_reset (cfg : Config) (s : St) (x : Inp)
    (h : s.armed = false) (hr : cfg.deadband < x.raw) :
    loopStep cfg s x =
      updateLED { s with armStart := 0, target := x.pos, enableHigh := true }
        x.now false false false := by
  unfold loopStep
  rw [if_pos h, if_neg (not_le.mpr hr)]

theorem loopStep_unarmed_set (cfg : Config) (s : St) (x : Inp)
    (h : s.armed = false) (hr : x.raw ≤ cfg.deadband) (h0 : s.armStart = 0) :
    loopStep cfg s x =
      updateLED { s with armStart := x.now, target := x.pos, enableHigh := true }
        x.now false false false := by
  unfold loopStep
  rw [if_pos h, if_pos hr, if_pos h0]

theorem loopStep_unarmed_fire (cfg : Config) (s : St) (x : Inp)
    (h : s.armed = false) (hr : x.raw ≤ cfg.deadband) (h0 : s.armStart ≠ 0)
    (ht : armThresh cfg ≤ x.now - s.armStart) :
    loopStep cfg s x =
      updateLED { s with armed := true, target := x.pos, enableHigh := true }
        x.now false false false := by
  unfold loopStep
  rw [if_pos h, if_pos hr, if_neg h0, if_pos ht]

theorem loopStep_unarmed_wait (cfg : Config) (s : St) (x : Inp)
    (h : s.armed = false) (hr : x.raw ≤ cfg.deadband) (h0 : s.armStart ≠ 0)
    (ht : x.now - s.armStart < armThresh cfg) :
    loopStep cfg s x =
      updateLED { s with target := x.pos, enableHigh := true }
        x.now false false false := by
  unfold loopStep
  rw [if_pos h, if_pos hr, if_neg h0, if_neg (not_le.mpr ht)]

-- loopStep branch equations: armed branch (lines 249-299)

theorem loopStep_armed_notick (cfg : Config) (s : St) (x : Inp)
    (h : s.armed = true) (ht : x.now - s.lastControlUpdate < controlInterval cfg) :
    loopStep cfg s x = { s with led := false } := by
  unfold loopStep
  rw [if_neg (by simp [h]), if_neg (not_le.mpr ht)]
  exact updateLED_of_armed_flags_false s x.now h

theorem loopStep_armed_stop_set (cfg : Config) (s : St) (x : Inp)
    (h : s.armed = true) (ht : controlInterval cfg ≤ x.now - s.lastControlUpdate)
    (hz : scaledOf cfg x.filtered ≤ cfg.deadband) (h0 : s.disableStart = 0) :
    loopStep cfg s x =
      updateLED { s with lastControlUpdate := x.now, disableStart := x.now }
        x.now false false true := by
  unfold loopStep
  rw [if_neg (by simp [h]), if_pos ht, if_pos hz, if_pos h0]

theorem loopStep_armed_stop_fire (cfg : Config) (s : St) (x : Inp)
    (h : s.armed = true) (ht : controlInterval cfg ≤ x.now - s.lastControlUpdate)
    (hz : scaledOf cfg x.filtered ≤ cfg.deadband) (h0 : s.disableStart ≠ 0)
    (hd : cfg.disableDelay ≤ x.now - s.disableStart) :
    loopStep cfg s x =
      updateLED { s with lastControlUpdate := x.now, enableHigh := true, target := x.pos }
        x.now false false true := by
  unfold loopStep
  rw [if_neg (by simp [h]), if_pos ht, if_pos hz, if_neg h0, if_pos hd]

theorem loopStep_armed_stop_wait (cfg : Config) (s : St) (x : Inp)
    (h : s.armed = true) (ht : controlInterval cfg ≤ x.now - s.lastControlUpdate)
    (hz : scaledOf cfg x.filtered ≤ cfg.deadband) (h0 : s.disableStart ≠ 0)
    (hd : x.now - s.disableStart < cfg.disableDelay) :
    loopStep cfg s x =
      updateLED { s with lastControlUpdate := x.now } x.now false false true := by
  unfold loopStep
  rw [if_neg (by simp [h]), if_pos ht, if_pos hz, if_neg h0, if_neg (not_le.mpr hd)]

theorem loopStep_armed_hold (cfg : Config) (s : St) (x : Inp)
    (h : s.armed = true) (ht : controlInterval cfg ≤ x.now - s.lastControlUpdate)
    (hz1 : cfg.deadband < scaledOf cfg x.filtered)
    (hz2 : scaledOf cfg x.filtered ≤ cfg.holdBand) :
    loopStep cfg s x =
      updateLED { s with lastControlUpdate := x.now, disableStart := 0,
                         enableHigh := false, target := x.pos }
        x.now false true false := by
  unfold loopStep
  rw [if_neg (by simp [h]), if_pos ht, if_neg (not_le.mpr hz1), if_pos hz2]

theorem loopStep_armed_throttle (cfg : Config) (s : St) (x : Inp)
    (h : s.armed = true) (ht : controlInterval cfg ≤ x.now - s.lastControlUpdate)
    (hz1 : cfg.deadband < scaledOf cfg x.filtered)
    (hz2 : cfg.holdBand < scaledOf cfg x.filtered) :
    loopStep cfg s x =
      updateLED { s with
                  lastControlUpdate := x.now, disableStart := 0, enableHigh := false
                  virtualPos := s.virtualPos +
                    applyCurve cfg.inputCurve cfg.logK ((uOf cfg x.filtered : ℚ) : ℝ) *
                      (cfg.maxSpeed : ℝ) / (cfg.controlHz : ℝ)
                  target := truncToInt (s.virtualPos +
                    applyCurve cfg.inputCurve cfg.logK ((uOf cfg x.filtered : ℚ) : ℝ) *
                      (cfg.maxSpeed : ℝ) / (cfg.controlHz : ℝ)) }
        x.now true false false := by
  unfold loopStep
  rw [if_neg (by simp [h]), if_pos ht, if_neg (not_le.mpr hz1), if_neg (not_le.mpr hz2)]

-- zone bridges

theorem zoneOf_eq_stop_iff (cfg : Config) (f : ℤ) :
    zoneOf cfg f = Zone.STOP ↔ scaledOf cfg f ≤ cfg.deadband := by
  unfold zoneOf classifyZone
  split_ifs <;> simp_all

theorem zoneOf_eq_hold_iff (cfg : Config) (f : ℤ) :
    zoneOf cfg f = Zone.HOLD ↔
      (cfg.deadband < scaledOf cfg f ∧ scaledOf cfg f ≤ cfg.holdBand) := by
  unfold zoneOf classifyZone
  split_ifs <;> simp_all

theorem zoneOf_eq_throttle_iff (cfg : Config) (f : ℤ) :
    zoneOf cfg f = Zone.THROTTLE ↔
      (cfg.deadband < scaledOf cfg f ∧ cfg.holdBand < scaledOf cfg f) := by
  unfold zoneOf classifyZone
  split_ifs <;> simp_all

-- armed is never cleared by a step

theorem step_armed_mono (cfg : Config) (s : St) (x : Inp) (h : s.armed = true) :
    (loopStep cfg s x).armed = true := by
  by_cases ht : controlInterval cfg ≤ x.now - s.lastControlUpdate
  · by_cases hz1 : scaledOf cfg x.filtered ≤ cfg.deadband
    · by_cases h0 : s.disableStart = 0
      · rw [loopStep_armed_stop_set cfg s x h ht hz1 h0]; simp [h]
      · by_cases hd : cfg.disableDelay ≤ x.now - s.disableStart
        · rw [loopStep_armed_stop_fire cfg s x h ht hz1 h0 hd]; simp [h]
        · rw [loopStep_armed_stop_wait cfg s x h ht hz1 h0 (not_le.mp hd)]; simp [h]
    · by_cases hz2 : scaledOf cfg x.filtered ≤ cfg.holdBand
      · rw [loopStep_armed_hold cfg s x h ht (not_le.mp hz1) hz2]; simp [h]
      · rw [loopStep_armed_throttle cfg s x h ht (not_le.mp hz1) (not_le.mp hz2)]; simp [h]
  · rw [loopStep_armed_notick cfg s x h (not_le.mp ht)]; exact h

theorem step_armStart_const_of_armed (cfg : Config) (s : St) (x : Inp) (h : s.armed = true) :
    (loopStep cfg s x).armStart = s.armStart := by
  by_cases ht : controlInterval cfg ≤ x.now - s.lastControlUpdate
  · by_cases hz1 : scaledOf cfg x.filtered ≤ cfg.deadband
    · by_cases h0 : s.disableStart = 0
      · rw [loopStep_armed_stop_set cfg s x h ht hz1 h0]; simp
      · by_cases hd : cfg.disableDelay ≤ x.now - s.disableStart
        · rw [loopStep_armed_stop_fire cfg s x h ht hz1 h0 hd]; simp
        · rw [loopStep_armed_stop_wait cfg s x h ht hz1 h0 (not_le.mp hd)]; simp
    · by_cases hz2 : scaledOf cfg x.filtered ≤ cfg.holdBand
      · rw [loopStep_armed_hold cfg s x h ht (not_le.mp hz1) hz2]; simp
      · rw [loopStep_armed_throttle cfg s x h ht (not_le.mp hz1) (not_le.mp hz2)]; simp
  · rw [loopStep_armed_notick cfg s x h (not_le.mp ht)]

theorem runFrom_armed_mono (cfg : Config) (inp : ℕ → Inp) (s : St) {n m : ℕ}
    (hnm : n ≤ m) (h : (runFrom cfg inp s n).armed = true) :
    (runFrom cfg inp s m).armed = true := by
  induction m, hnm using Nat.le_induction with
  | base => exact h
  | succ m hm ih => exact step_armed_mono cfg _ (inp m) ih

-- if an unarmed step arms, the arming conditions held

theorem step_arming_cases (cfg : Config) (s : St) (x : Inp) (h : s.armed = false)
    (h2 : (loopStep cfg s x).armed = true) :
    x.raw ≤ cfg.deadband ∧ s.armStart ≠ 0 ∧ armThresh cfg ≤ x.now - s.armStart := by
  by_cases hr : x.raw ≤ cfg.deadband
  · by_cases h0 : s.armStart = 0
    · rw [loopStep_unarmed_set cfg s x h hr h0] at h2
      simp [h] at h2
    · by_cases ht : armThresh cfg ≤ x.now - s.armStart
      · exact ⟨hr, h0, ht⟩
      · rw [loopStep_unarmed_wait cfg s x h hr h0 (not_le.mp ht)] at h2
        simp [h] at h2
  · rw [loopStep_unarmed_reset cfg s x h (not_le.mp hr)] at h2
    simp [h] at h2

-- a step backward: if the next state is unarmed, so was the current one

theorem runFrom_not_armed_pred (cfg : Config) (inp : ℕ → Inp) (s : St) (n : ℕ)
    (h : (runFrom cfg inp s (n + 1)).armed = false) :
    (runFrom cfg inp s n).armed = false := by
  cases hb : (runFrom cfg inp s n).armed with
  | false => rfl
  | true =>
    have h2 := step_armed_mono cfg _ (inp n) hb
    simp only [runFrom] at h
    rw [h2] at h
    simp at h

-- where the arm timer value can come from while still unarmed

theorem armStart_provenance (cfg : Config) (inp : ℕ → Inp) :
    ∀ n, (runFrom cfg inp initSt n).armed = false →
      (runFrom cfg inp initSt n).armStart = 0 ∨
      ∃ i, i < n ∧ (runFrom cfg inp initSt n).armStart = (inp i).now ∧
        ∀ m, i ≤ m → m < n → (inp m).raw ≤ cfg.deadband := by
  intro n
  induction n with
  | zero => intro _; left; rfl
  | succ n ih =>
    intro hA1
    have hA : (runFrom cfg inp initSt n).armed = false :=
      runFrom_not_armed_pred cfg inp initSt n hA1
    by_cases hr : (inp n).raw ≤ cfg.deadband
    · by_cases h0 : (runFrom cfg inp initSt n).armStart = 0
      · right
        refine ⟨n, Nat.lt_succ_self n, ?_, ?_⟩
        · show (runFrom cfg inp initSt (n + 1)).armStart = (inp n).now
          simp only [runFrom]
          rw [loopStep_unarmed_set cfg _ (inp n) hA hr h0]
          simp
        · intro m hm1 hm2
          have : m = n := by omega
          subst this
          exact hr
      · by_cases ht : armThresh cfg ≤ (inp n).now - (runFrom cfg inp initSt n).armStart
        · exfalso
          simp only [runFrom] at hA1
          rw [loopStep_unarmed_fire cfg _ (inp n) hA hr h0 ht] at hA1
          simp at hA1
        · have hkeep : (runFrom cfg inp initSt (n + 1)).armStart =
              (runFrom cfg inp initSt n).armStart := by
            simp only [runFrom]
            rw [loopStep_unarmed_wait cfg _ (inp n) hA hr h0 (not_le.mp ht)]
            simp
          rcases ih hA with h0x | ⟨i, hi, heq, hall⟩
          · exact absurd h0x h0
          · right
            refine ⟨i, by omega, by rw [hkeep]; exact heq, ?_⟩
            intro m hm1 hm2
            by_cases hmn : m < n
            · exact hall m hm1 hmn
            · have : m = n := by omega
              subst this
              exact hr
    · left
      simp only [runFrom]
      rw [loopStep_unarmed_reset cfg _ (inp n) hA (not_le.mp hr)]
      simp

-- during an uninterrupted stop hold the arm timer stays set and at most
-- the time of the first sample of the hold

theorem armStart_hold (cfg : Config) (inp : ℕ → Inp)
    (hpos : ∀ k, 0 < (inp k).now)
    (hmono : ∀ a b, a ≤ b → (inp a).now ≤ (inp b).now) :
    ∀ i j, i < j → (runFrom cfg inp initSt j).armed = false →
      (∀ m, i ≤ m → m < j → (inp m).raw ≤ cfg.deadband) →
      (runFrom cfg inp initSt j).armStart ≠ 0 ∧
        (runFrom cfg inp initSt j).armStart ≤ (inp i).now := by
  intro i j hij
  induction j, hij using Nat.le_induction with
  | base =>
    intro hA1 hall
    have hA : (runFrom cfg inp initSt i).armed = false :=
      runFrom_not_armed_pred cfg inp initSt i hA1
    have hr : (inp i).raw ≤ cfg.deadband := hall i le_rfl (Nat.lt_succ_self i)
    by_cases h0 : (runFrom cfg inp initSt i).armStart = 0
    · have : (runFrom cfg inp initSt (i + 1)).armStart = (inp i).now := by
        simp only [runFrom]
        rw [loopStep_unarmed_set cfg _ (inp i) hA hr h0]
        simp
      rw [this]
      refine ⟨?_, le_rfl⟩
      have := hpos i
      omega
    · by_cases ht : armThresh cfg ≤ (inp i).now - (runFrom cfg inp initSt i).armStart
      · exfalso
        simp only [runFrom] at hA1
        rw [loopStep_unarmed_fire cfg _ (inp i) hA hr h0 ht] at hA1
        simp at hA1
      · have hkeep : (runFrom cfg inp initSt (i + 1)).armStart =
            (runFrom cfg inp initSt i).armStart := by
          simp only [runFrom]
          rw [loopStep_unarmed_wait cfg _ (inp i) hA hr h0 (not_le.mp ht)]
          simp
        rw [hkeep]
        rcases armStart_provenance cfg inp i hA with h0x | ⟨i2, hi2, heq, _⟩
        · exact absurd h0x h0
        · constructor
          · rw [heq]; have := hpos i2; omega
          · rw [heq]; exact hmono i2 i (Nat.le_of_lt hi2)
  | succ j hj ihj =>
    intro hA1 hall
    have hA : (runFrom cfg inp initSt j).armed = false :=
      runFrom_not_armed_pred cfg inp initSt j hA1
    have ih := ihj hA (fun m hm1 hm2 => hall m hm1 (by omega))
    have hr : (inp j).raw ≤ cfg.deadband := hall j (by omega) (Nat.lt_succ_self j)
    by_cases ht : armThresh cfg ≤ (inp j).now - (runFrom cfg inp initSt j).armStart
    · exfalso
      simp only [runFrom] at hA1
      rw [loopStep_unarmed_fire cfg _ (inp j) hA hr ih.1 ht] at hA1
      simp at hA1
    · have hkeep : (runFrom cfg inp initSt (j + 1)).armStart =
          (runFrom cfg inp initSt j).armStart := by
        simp only [runFrom]
        rw [loopStep_unarmed_wait cfg _ (inp j) hA hr ih.1 (not_le.mp ht)]
        simp
      rw [hkeep]
      exact ih

-- a full stop-hold window forces arming

theorem armed_of_window (cfg : Config) (inp : ℕ → Inp)
    (hpos : ∀ k, 0 < (inp k).now)
    (hmono : ∀ a b, a ≤ b → (inp a).now ≤ (inp b).now)
    (n : ℕ) (hW : ArmWindow cfg inp n) :
    (runFrom cfg inp initSt n).armed = true := by
  obtain ⟨i, j, hij, hjn, hall, hth⟩ := hW
  have hj1 : (runFrom cfg inp initSt (j + 1)).armed = true := by
    cases hAj : (runFrom cfg inp initSt j).armed with
    | true => exact step_armed_mono cfg _ (inp j) hAj
    | false =>
      have hhold := armStart_hold cfg inp hpos hmono i j hij hAj
        (fun m h1 h2 => hall m h1 (by omega))
      have hr : (inp j).raw ≤ cfg.deadband := hall j (by omega) le_rfl
      have hth2 : armThresh cfg ≤ (inp j).now - (runFrom cfg inp initSt j).armStart :=
        le_trans hth (Nat.sub_le_sub_left hhold.2 (inp j).now)
      show (loopStep cfg (runFrom cfg inp initSt j) (inp j)).armed = true
      rw [loopStep_unarmed_fire cfg _ (inp j) hAj hr hhold.1 hth2]
      simp
  exact runFrom_armed_mono cfg inp initSt (show j + 1 ≤ n by omega) hj1

-- arming only happens after a full stop-hold window

theorem window_of_armed (cfg : Config) (inp : ℕ → Inp) :
    ∀ n, (runFrom cfg inp initSt n).armed = true → ArmWindow cfg inp n := by
  intro n
  induction n with
  | zero => intro hA; simp [runFrom, initSt] at hA
  | succ n ih =>
    intro hA
    cases hAn : (runFrom cfg inp initSt n).armed with
    | true =>
      obtain ⟨i, j, hij, hjn, hall, hth⟩ := ih hAn
      exact ⟨i, j, hij, by omega, hall, hth⟩
    | false =>
      obtain ⟨hr, h0, ht⟩ := step_arming_cases cfg _ (inp n) hAn
        (by simp only [runFrom] at hA; exact hA)
      rcases armStart_provenance cfg inp n hAn with hz | ⟨i, hi, heq, hall⟩
      · exact absurd hz h0
      · refine ⟨i, n, hi, Nat.lt_succ_self n, ?_, ?_⟩
        · intro m h1 h2
          by_cases hmn : m < n
          · exact hall m h1 hmn
          · have : m = n := by omega
            subst this
            exact hr
        · rw [← heq]
          exact ht

/-- Claim C1: starting from the initial UNARMED state, the controller is ARMED
after processing n samples exactly when some contiguous run of raw samples
at or below the deadband spans at least max(configuredArmDelay, 250 ms)
within those samples; and any single raw sample above the threshold while
unarmed resets the arm-hold timer to unset (so an interrupted hold never
arms).  Time is positive and strictly increasing across iterations, as
guaranteed by the 250 ms settling delay in setup(). -/
theorem arming_characterization (cfg : Config) (inp : ℕ → Inp)
    (hpos : 0 < (inp 0).now)
    (hmono : StrictMono fun k => (inp k).now) :
    (∀ n, ((runFrom cfg inp initSt n).armed = true ↔ ArmWindow cfg inp n)) ∧
    (∀ s x, s.armed = false → cfg.deadband < x.raw →
      (loopStep cfg s x).armed = false ∧ (loopStep cfg s x).armStart = 0) := by
  have hposAll : ∀ k, 0 < (inp k).now :=
    fun k => lt_of_lt_of_le hpos (hmono.monotone (Nat.zero_le k))
  have hmono2 : ∀ a b, a ≤ b → (inp a).now ≤ (inp b).now :=
    fun a b h => hmono.monotone h
  constructor
  · intro n
    exact ⟨window_of_armed cfg inp n, armed_of_window cfg inp hposAll hmono2 n⟩
  · intro s x hs hr
    rw [loopStep_unarmed_reset cfg s x hs hr]
    constructor <;> simp [hs]

/-- Witness for C1 at the default configuration and a concrete stop-hold
input trace. -/
theorem arming_characterization_witness :
    0 < (wArmInp 0).now ∧
    ((∀ n, ((runFrom defaultConfig wArmInp initSt n).armed = true ↔
        ArmWindow defaultConfig wArmInp n)) ∧
     (∀ s x, s.armed = false → defaultConfig.deadband < x.raw →
       (loopStep defaultConfig s x).armed = false ∧
         (loopStep defaultConfig s x).armStart = 0)) := by
  have hm : StrictMono fun k => (wArmInp k).now := by
    apply strictMono_nat_of_lt_succ
    intro n
    simp only [wArmInp]
    omega
  exact ⟨by norm_num [wArmInp],
    arming_characterization defaultConfig wArmInp (by norm_num [wArmInp]) hm⟩

/-- Claim C4: SafetyState only ever transitions UNARMED to ARMED: in every run of
the control loop, from any start state and any inputs, once the controller
is ARMED it is still ARMED after any number of further iterations,
regardless of the pedal values seen. -/
theorem armed_never_reverts (cfg : Config) (inp : ℕ → Inp) (s : St) (n m : ℕ)
    (hnm : n ≤ m) (h : (runFrom cfg inp s n).armed = true) :
    (runFrom cfg inp s m).armed = true :=
  runFrom_armed_mono cfg inp s hnm h

/-- Witness for C4: an armed state stays armed over one more iteration. -/
theorem armed_never_reverts_witness :
    (0 : ℕ) ≤ 1 ∧ (runFrom defaultConfig fullInp stArmed 0).armed = true ∧
    (runFrom defaultConfig fullInp stArmed 1).armed = true :=
  ⟨Nat.zero_le 1, rfl, armed_never_reverts defaultConfig fullInp stArmed 0 1 (Nat.zero_le 1) rfl⟩

/-- Claim C10: on an ARMED iteration whose control interval has not elapsed, the
whole controller state except the LED level is unchanged: the enable pin,
disableStart, virtualPos, lastControlUpdate and the commanded target all
keep their previous values, and the iteration only services the stepper
pulse generator and the LED. -/
theorem notick_frame (cfg : Config) (s : St) (x : Inp) (h : s.armed = true)
    (ht : x.now - s.lastControlUpdate < controlInterval cfg) :
    (loopStep cfg s x).enableHigh = s.enableHigh ∧
    (loopStep cfg s x).disableStart = s.disableStart ∧
    (loopStep cfg s x).virtualPos = s.virtualPos ∧
    (loopStep cfg s x).lastControlUpdate = s.lastControlUpdate ∧
    (loopStep cfg s x).target = s.target ∧
    (loopStep cfg s x).armed = s.armed ∧
    loopStep cfg s x = { s with led := false } := by
  rw [loopStep_armed_notick cfg s x h ht]
  exact ⟨rfl, rfl, rfl, rfl, rfl, rfl, rfl⟩

/-- Witness for C10 at a concrete armed state 5 ms after the last control
update. -/
theorem notick_frame_witness :
    stArmed.armed = true ∧
    ((5 : ℕ) - stArmed.lastControlUpdate < controlInterval defaultConfig) ∧
    loopStep defaultConfig stArmed { now := 5, raw := 0, filtered := 0, pos := 0 } =
      { stArmed with led := false } := by
  refine ⟨rfl, by norm_num [stArmed, initSt, controlInterval, defaultConfig], ?_⟩
  exact (notick_frame defaultConfig stArmed { now := 5, raw := 0, filtered := 0, pos := 0 }
    rfl (by norm_num [stArmed, initSt, controlInterval, defaultConfig])).2.2.2.2.2.2

/-- Claim C5: for every curve kind and every steepness k > 0, applyCurve is
monotone non-decreasing on [0,1], maps 0 to 0 and 1 to 1.  It is a pure
function of its input by construction. -/
theorem applyCurve_spec (kind : ℕ) (k : ℝ) (hk : 0 < k) :
    (∀ u v : ℝ, 0 ≤ u → u ≤ v → v ≤ 1 →
      applyCurve kind k u ≤ applyCurve kind k v) ∧
    applyCurve kind k 0 = 0 ∧ applyCurve kind k 1 = 1 := by
  rcases kind with _ | _ | _ | n
  · exact ⟨fun u v h0 huv h1 => huv, rfl, rfl⟩
  · refine ⟨fun u v h0 huv h1 => ?_, ?_, ?_⟩
    · show u * u ≤ v * v
      exact mul_le_mul huv huv h0 (le_trans h0 huv)
    · show (0 : ℝ) * 0 = 0
      norm_num
    · show (1 : ℝ) * 1 = 1
      norm_num
  · have hL : 0 < Real.log (1 + k) := Real.log_pos (by linarith)
    refine ⟨fun u v h0 huv h1 => ?_, ?_, ?_⟩
    · show Real.log (1 + k * u) / Real.log (1 + k) ≤
        Real.log (1 + k * v) / Real.log (1 + k)
      have h1u : (0 : ℝ) < 1 + k * u := by nlinarith
      have hle : 1 + k * u ≤ 1 + k * v := by nlinarith
      rw [div_eq_mul_inv, div_eq_mul_inv]
      exact mul_le_mul_of_nonneg_right (Real.log_le_log h1u hle)
        (le_of_lt (inv_pos.mpr hL))
    · show Real.log (1 + k * 0) / Real.log (1 + k) = 0
      norm_num
    · show Real.log (1 + k * 1) / Real.log (1 + k) = 1
      rw [mul_one]
      exact div_self (ne_of_gt hL)
  · exact ⟨fun u v h0 huv h1 => huv, rfl, rfl⟩

/-- Witness for C5 at the configured logarithmic curve with k = 20. -/
theorem applyCurve_spec_witness :
    (0 : ℝ) < 20 ∧
    ((∀ u v : ℝ, 0 ≤ u → u ≤ v → v ≤ 1 →
      applyCurve 2 20 u ≤ applyCurve 2 20 v) ∧
     applyCurve 2 20 0 = 0 ∧ applyCurve 2 20 1 = 1) :=
  ⟨by norm_num, applyCurve_spec 2 20 (by norm_num)⟩

/-- Claim C8, amended: for every raw sample and every configuration whose
calibration bounds are distinct (including inverted bounds,
calibMin > calibMax), normalizeADC produces a defined value in [0,1].
Equal (degenerate) bounds make the float code compute 0/0 = NaN, which the
clamps do not catch (see the counterexample). -/
theorem normalize_defined (raw calibMin calibMax : ℤ) (reversed : Bool)
    (h : calibMax ≠ calibMin) :
    ∃ u, normalizeADC raw calibMin calibMax reversed = some u ∧ 0 ≤ u ∧ u ≤ 1 := by
  unfold normalizeADC
  rw [if_neg h]
  refine ⟨_, rfl, ?_, ?_⟩ <;> split_ifs <;> linarith

/-- Counterexample for C8: with degenerate equal calibration bounds the
float code divides 0.0 by 0.0 and returns NaN, i.e. no value in [0,1]. -/
theorem normalize_degenerate_cex : normalizeADC 5 10 10 false = none := rfl

/-- Witness for C8 with the default (distinct) calibration bounds. -/
theorem normalize_defined_witness :
    ((1010 : ℤ) ≠ 10) ∧
    ∃ u, normalizeADC 5 10 1010 false = some u ∧ 0 ≤ u ∧ u ≤ 1 :=
  ⟨by norm_num, normalize_defined 5 10 1010 false (by norm_num)⟩

/-- Claim C6: in three-zone mode the classification of the rescaled input is
STOP exactly on inputs at or below the deadband, HOLD exactly strictly
above the deadband and at most the hold band, THROTTLE exactly above the
hold band; zoneOf applies this to the normalized, rescaled filtered
sample; and at the default thresholds the boundary samples 20, 21, 60 and
61 classify as STOP, HOLD, HOLD and THROTTLE respectively. -/
theorem zone_classification (cfg : Config) (scaled : ℤ)
    (h : cfg.deadband ≤ cfg.holdBand) :
    ((classifyZone cfg scaled = Zone.STOP ↔ scaled ≤ cfg.deadband) ∧
     (classifyZone cfg scaled = Zone.HOLD ↔
       (cfg.deadband < scaled ∧ scaled ≤ cfg.holdBand)) ∧
     (classifyZone cfg scaled = Zone.THROTTLE ↔ cfg.holdBand < scaled)) ∧
    (∀ f, zoneOf cfg f = classifyZone cfg (scaledOf cfg f)) ∧
    (classifyZone defaultConfig 20 = Zone.STOP ∧
     classifyZone defaultConfig 21 = Zone.HOLD ∧
     classifyZone defaultConfig 60 = Zone.HOLD ∧
     classifyZone defaultConfig 61 = Zone.THROTTLE) := by
  refine ⟨⟨?_, ?_, ?_⟩, fun f => rfl, ?_⟩
  · unfold classifyZone
    split_ifs <;> simp_all
  · unfold classifyZone
    split_ifs <;> simp_all
  · unfold classifyZone
    split_ifs <;> simp_all
    omega
  · norm_num [classifyZone, defaultConfig]

/-- Witness for C6 at the default configuration, one count above the
deadband. -/
theorem zone_classification_witness :
    defaultConfig.deadband ≤ defaultConfig.holdBand ∧
    (((classifyZone defaultConfig 21 = Zone.STOP ↔ (21 : ℤ) ≤ defaultConfig.deadband) ∧
      (classifyZone defaultConfig 21 = Zone.HOLD ↔
        (defaultConfig.deadband < 21 ∧ (21 : ℤ) ≤ defaultConfig.holdBand)) ∧
      (classifyZone defaultConfig 21 = Zone.THROTTLE ↔ defaultConfig.holdBand < 21)) ∧
     (∀ f, zoneOf defaultConfig f = classifyZone defaultConfig (scaledOf defaultConfig f)) ∧
     (classifyZone defaultConfig 20 = Zone.STOP ∧
      classifyZone defaultConfig 21 = Zone.HOLD ∧
      classifyZone defaultConfig 60 = Zone.HOLD ∧
      classifyZone defaultConfig 61 = Zone.THROTTLE)) :=
  ⟨by norm_num [defaultConfig], zone_classification defaultConfig 21 (by norm_num [defaultConfig])⟩

/-- Claim C2, amended: the drive-enable pin after an iteration is governed by
the safety state and zone as follows.  While UNARMED the driver is forced
disabled (ENABLE HIGH) and commanded motion is forced to zero, for any
pedal value.  While ARMED, a control tick in a non-STOP zone enables the
driver; a control tick in the STOP zone with the disable delay elapsed
disables it and zeroes the commanded motion; a control tick in the STOP
zone with the delay not yet elapsed leaves the pin unchanged (it does not
actively enable it - see the counterexample); and an iteration without a
control tick leaves the pin unchanged. -/
theorem enable_gating (cfg : Config) (s : St) (x : Inp) :
    (s.armed = false →
      (loopStep cfg s x).enableHigh = true ∧ (loopStep cfg s x).target = x.pos) ∧
    (s.armed = true → controlInterval cfg ≤ x.now - s.lastControlUpdate →
      zoneOf cfg x.filtered ≠ Zone.STOP → (loopStep cfg s x).enableHigh = false) ∧
    (s.armed = true → controlInterval cfg ≤ x.now - s.lastControlUpdate →
      zoneOf cfg x.filtered = Zone.STOP → s.disableStart ≠ 0 →
      cfg.disableDelay ≤ x.now - s.disableStart →
      (loopStep cfg s x).enableHigh = true ∧ (loopStep cfg s x).target = x.pos) ∧
    (s.armed = true → controlInterval cfg ≤ x.now - s.lastControlUpdate →
      zoneOf cfg x.filtered = Zone.STOP →
      (s.disableStart = 0 ∨ x.now - s.disableStart < cfg.disableDelay) →
      (loopStep cfg s x).enableHigh = s.enableHigh) ∧
    (s.armed = true → x.now - s.lastControlUpdate < controlInterval cfg →
      (loopStep cfg s x).enableHigh = s.enableHigh) := by
  refine ⟨?_, ?_, ?_, ?_, ?_⟩
  · intro hs
    by_cases hr : x.raw ≤ cfg.deadband
    · by_cases h0 : s.armStart = 0
      · rw [loopStep_unarmed_set cfg s x hs hr h0]
        constructor <;> simp
      · by_cases ht2 : armThresh cfg ≤ x.now - s.armStart
        · rw [loopStep_unarmed_fire cfg s x hs hr h0 ht2]
          constructor <;> simp
        · rw [loopStep_unarmed_wait cfg s x hs hr h0 (not_le.mp ht2)]
          constructor <;> simp
    · rw [loopStep_unarmed_reset cfg s x hs (not_le.mp hr)]
      constructor <;> simp
  · intro hs htick hz
    have hz1 : cfg.deadband < scaledOf cfg x.filtered :=
      not_le.mp (fun hle => hz ((zoneOf_eq_stop_iff cfg x.filtered).mpr hle))
    by_cases hz2 : scaledOf cfg x.filtered ≤ cfg.holdBand
    · rw [loopStep_armed_hold cfg s x hs htick hz1 hz2]
      simp
    · rw [loopStep_armed_throttle cfg s x hs htick hz1 (not_le.mp hz2)]
      simp
  · intro hs htick hz h0 hd
    have hzs : scaledOf cfg x.filtered ≤ cfg.deadband :=
      (zoneOf_eq_stop_iff cfg x.filtered).mp hz
    rw [loopStep_armed_stop_fire cfg s x hs htick hzs h0 hd]
    constructor <;> simp
  · intro hs htick hz hcase
    have hzs : scaledOf cfg x.filtered ≤ cfg.deadband :=
      (zoneOf_eq_stop_iff cfg x.filtered).mp hz
    rcases hcase with h0 | hd
    · rw [loopStep_armed_stop_set cfg s x hs htick hzs h0]
      simp
    · by_cases h0 : s.disableStart = 0
      · rw [loopStep_armed_stop_set cfg s x hs htick hzs h0]
        simp
      · rw [loopStep_armed_stop_wait cfg s x hs htick hzs h0 hd]
        simp
  · intro hs htick
    rw [loopStep_armed_notick cfg s x hs htick]

/-- Counterexample for C2 as originally stated: after arming with the
pedal still at stop, the first armed control tick classifies STOP and the
disable delay has not elapsed, yet the drive-enable output is still
disabled (ENABLE HIGH), while the claimed equivalence would require it to
be enabled. -/
theorem enable_gating_cex :
    (runFrom defaultConfig cexInp initSt 3).armed = true ∧
    zoneOf defaultConfig (cexInp 2).filtered = Zone.STOP ∧
    (cexInp 2).now - (runFrom defaultConfig cexInp initSt 3).disableStart <
      defaultConfig.disableDelay ∧
    (runFrom defaultConfig cexInp initSt 3).enableHigh = true := by
  have h1 : runFrom defaultConfig cexInp initSt 1 =
      { armed := false, armStart := 250, disableStart := 0, lastControlUpdate := 0,
        lastLED := 0, ledState := false, led := false, enableHigh := true,
        target := 0, virtualPos := 0 } := by
    show loopStep defaultConfig initSt (cexInp 0) = _
    rw [loopStep_unarmed_set defaultConfig initSt (cexInp 0) rfl
      (by norm_num [cexInp, defaultConfig]) rfl]
    norm_num [updateLED, initSt, cexInp]
  have h2 : runFrom defaultConfig cexInp initSt 2 =
      { armed := true, armStart := 250, disableStart := 0, lastControlUpdate := 0,
        lastLED := 0, ledState := false, led := false, enableHigh := true,
        target := 0, virtualPos := 0 } := by
    show loopStep defaultConfig (runFrom defaultConfig cexInp initSt 1) (cexInp 1) = _
    rw [h1]
    rw [loopStep_unarmed_fire defaultConfig _ (cexInp 1) rfl
      (by norm_num [cexInp, defaultConfig]) (by norm_num)
      (by norm_num [cexInp, armThresh, defaultConfig])]
    norm_num [updateLED, cexInp]
  have h3 : runFrom defaultConfig cexInp initSt 3 =
      { armed := true, armStart := 250, disableStart := 760, lastControlUpdate := 760,
        lastLED := 0, ledState := false, led := false, enableHigh := true,
        target := 0, virtualPos := 0 } := by
    show loopStep defaultConfig (runFrom defaultConfig cexInp initSt 2) (cexInp 2) = _
    rw [h2]
    rw [loopStep_armed_stop_set defaultConfig _ (cexInp 2) rfl
      (by norm_num [cexInp, controlInterval, defaultConfig])
      (by norm_num [cexInp, scaledOf, uOf, normalizeADC, truncQ, defaultConfig])
      rfl]
    norm_num [updateLED, cexInp]
  rw [h3]
  refine ⟨rfl, ?_, ?_, rfl⟩
  · norm_num [cexInp, zoneOf, classifyZone, scaledOf, uOf, normalizeADC, truncQ,
      defaultConfig]
  · norm_num [cexInp, defaultConfig]

/-- Witness for C2 (amended), the UNARMED clause with a fully pressed
pedal. -/
theorem enable_gating_witness :
    initSt.armed = false ∧
    ((loopStep defaultConfig initSt { now := 100, raw := 500, filtered := 500, pos := 7 }).enableHigh = true ∧
     (loopStep defaultConfig initSt { now := 100, raw := 500, filtered := 500, pos := 7 }).target = 7) :=
  ⟨rfl, (enable_gating defaultConfig initSt
    { now := 100, raw := 500, filtered := 500, pos := 7 }).1 rfl⟩

/-- Claim C3: while ARMED, on a control tick in the STOP zone the disable-hold
timer is started if unset; once it has run for at least disableDelay the
driver is forced off and the commanded motion is zeroed; while it has not
elapsed nothing changes; and a control tick in any non-STOP zone resets
the timer to unset and enables the driver (cancelling a pending
disable). -/
theorem stop_disable_hold (cfg : Config) (s : St) (x : Inp)
    (harm : s.armed = true)
    (htick : controlInterval cfg ≤ x.now - s.lastControlUpdate) :
    (zoneOf cfg x.filtered = Zone.STOP → s.disableStart = 0 →
      (loopStep cfg s x).disableStart = x.now ∧
      (loopStep cfg s x).enableHigh = s.enableHigh ∧
      (loopStep cfg s x).target = s.target) ∧
    (zoneOf cfg x.filtered = Zone.STOP → s.disableStart ≠ 0 →
      cfg.disableDelay ≤ x.now - s.disableStart →
      (loopStep cfg s x).enableHigh = true ∧ (loopStep cfg s x).target = x.pos ∧
      (loopStep cfg s x).disableStart = s.disableStart) ∧
    (zoneOf cfg x.filtered = Zone.STOP → s.disableStart ≠ 0 →
      x.now - s.disableStart < cfg.disableDelay →
      (loopStep cfg s x).disableStart = s.disableStart ∧
      (loopStep cfg s x).enableHigh = s.enableHigh ∧
      (loopStep cfg s x).target = s.target) ∧
    (zoneOf cfg x.filtered ≠ Zone.STOP →
      (loopStep cfg s x).disableStart = 0 ∧ (loopStep cfg s x).enableHigh = false) := by
  refine ⟨?_, ?_, ?_, ?_⟩
  · intro hz h0
    have hzs : scaledOf cfg x.filtered ≤ cfg.deadband :=
      (zoneOf_eq_stop_iff cfg x.filtered).mp hz
    rw [loopStep_armed_stop_set cfg s x harm htick hzs h0]
    exact ⟨by simp, by simp, by simp⟩
  · intro hz h0 hd
    have hzs : scaledOf cfg x.filtered ≤ cfg.deadband :=
      (zoneOf_eq_stop_iff cfg x.filtered).mp hz
    rw [loopStep_armed_stop_fire cfg s x harm htick hzs h0 hd]
    exact ⟨by simp, by simp, by simp⟩
  · intro hz h0 hd
    have hzs : scaledOf cfg x.filtered ≤ cfg.deadband :=
      (zoneOf_eq_stop_iff cfg x.filtered).mp hz
    rw [loopStep_armed_stop_wait cfg s x harm htick hzs h0 hd]
    exact ⟨by simp, by simp, by simp⟩
  · intro hz
    have hz1 : cfg.deadband < scaledOf cfg x.filtered :=
      not_le.mp (fun hle => hz ((zoneOf_eq_stop_iff cfg x.filtered).mpr hle))
    by_cases hz2 : scaledOf cfg x.filtered ≤ cfg.holdBand
    · rw [loopStep_armed_hold cfg s x harm htick hz1 hz2]
      exact ⟨by simp, by simp⟩
    · rw [loopStep_armed_throttle cfg s x harm htick hz1 (not_le.mp hz2)]
      exact ⟨by simp, by simp⟩

/-- Witness for C3: an armed state whose disable timer started at time 5,
ticked at time 200 in the STOP zone, disables the driver and zeroes the
commanded motion. -/
theorem stop_disable_hold_witness :
    stArmedD.armed = true ∧
    controlInterval defaultConfig ≤ (200 : ℕ) - stArmedD.lastControlUpdate ∧
    zoneOf defaultConfig 0 = Zone.STOP ∧
    stArmedD.disableStart ≠ 0 ∧
    defaultConfig.disableDelay ≤ (200 : ℕ) - stArmedD.disableStart ∧
    ((loopStep defaultConfig stArmedD { now := 200, raw := 0, filtered := 0, pos := 7 }).enableHigh = true ∧
     (loopStep defaultConfig stArmedD { now := 200, raw := 0, filtered := 0, pos := 7 }).target = 7 ∧
     (loopStep defaultConfig stArmedD { now := 200, raw := 0, filtered := 0, pos := 7 }).disableStart = stArmedD.disableStart) := by
  refine ⟨rfl, by norm_num [stArmedD, stArmed, initSt, controlInterval, defaultConfig],
    by norm_num [zoneOf, classifyZone, scaledOf, uOf, normalizeADC, truncQ, defaultConfig],
    by norm_num [stArmedD, stArmed, initSt],
    by norm_num [stArmedD, stArmed, initSt, defaultConfig], ?_⟩
  exact (stop_disable_hold defaultConfig stArmedD
      { now := 200, raw := 0, filtered := 0, pos := 7 } rfl
      (by norm_num [stArmedD, stArmed, initSt, controlInterval, defaultConfig])).2.1
    (by norm_num [zoneOf, classifyZone, scaledOf, uOf, normalizeADC, truncQ, defaultConfig])
    (by norm_num [stArmedD, stArmed, initSt])
    (by norm_num [stArmedD, stArmed, initSt, defaultConfig])

-- the logarithmic curve maps full press to exactly 1

theorem applyCurve_two_at_one (k : ℝ) (hk : 0 < k) : applyCurve 2 k 1 = 1 := by
  show Real.log (1 + k * 1) / Real.log (1 + k) = 1
  rw [mul_one]
  exact div_self (ne_of_gt (Real.log_pos (by linarith)))

-- invariant of the full-throttle run: armed, ticking every 10 ms and
-- gaining 40 steps of virtual position per tick

theorem fullInp_run (n : ℕ) :
    (runFrom defaultConfig fullInp stArmed n).armed = true ∧
    (runFrom defaultConfig fullInp stArmed n).lastControlUpdate = 10 * n ∧
    (runFrom defaultConfig fullInp stArmed n).virtualPos = 40 * n := by
  induction n with
  | zero =>
    refine ⟨rfl, rfl, ?_⟩
    norm_num [runFrom, stArmed, initSt]
  | succ n ih =>
    obtain ⟨hA, hL, hV⟩ := ih
    have hci : controlInterval defaultConfig = 10 := by
      norm_num [controlInterval, defaultConfig]
    have htick : controlInterval defaultConfig ≤
        (fullInp n).now - (runFrom defaultConfig fullInp stArmed n).lastControlUpdate := by
      rw [hci, hL]
      simp only [fullInp]
      omega
    have hu : uOf defaultConfig (fullInp n).filtered = 1 := by
      norm_num [fullInp, uOf, normalizeADC, defaultConfig]
    have hsc : scaledOf defaultConfig (fullInp n).filtered = 1023 := by
      unfold scaledOf
      rw [hu]
      norm_num [truncQ]
    have hz1 : defaultConfig.deadband < scaledOf defaultConfig (fullInp n).filtered := by
      rw [hsc]
      norm_num [defaultConfig]
    have hz2 : defaultConfig.holdBand < scaledOf defaultConfig (fullInp n).filtered := by
      rw [hsc]
      norm_num [defaultConfig]
    have hcurve : applyCurve defaultConfig.inputCurve defaultConfig.logK
        ((uOf defaultConfig (fullInp n).filtered : ℚ) : ℝ) = 1 := by
      rw [hu]
      show applyCurve 2 20 ((1 : ℚ) : ℝ) = 1
      rw [show ((1 : ℚ) : ℝ) = 1 by norm_num]
      exact applyCurve_two_at_one 20 (by norm_num)
    have hvp : (loopStep defaultConfig (runFrom defaultConfig fullInp stArmed n)
        (fullInp n)).virtualPos =
        (runFrom defaultConfig fullInp stArmed n).virtualPos +
          applyCurve defaultConfig.inputCurve defaultConfig.logK
            ((uOf defaultConfig (fullInp n).filtered : ℚ) : ℝ) *
            (defaultConfig.maxSpeed : ℝ) / (defaultConfig.controlHz : ℝ) := by
      rw [loopStep_armed_throttle defaultConfig _ (fullInp n) hA htick hz1 hz2]
      simp
    refine ⟨?_, ?_, ?_⟩
    · show (loopStep defaultConfig (runFrom defaultConfig fullInp stArmed n)
        (fullInp n)).armed = true
      rw [loopStep_armed_throttle defaultConfig _ (fullInp n) hA htick hz1 hz2]
      simp [hA]
    · show (loopStep defaultConfig (runFrom defaultConfig fullInp stArmed n)
        (fullInp n)).lastControlUpdate = 10 * (n + 1)
      rw [loopStep_armed_throttle defaultConfig _ (fullInp n) hA htick hz1 hz2]
      simp [fullInp]
    · show (loopStep defaultConfig (runFrom defaultConfig fullInp stArmed n)
        (fullInp n)).virtualPos = 40 * ((n + 1 : ℕ) : ℝ)
      rw [hvp, hV, hcurve]
      simp only [defaultConfig]
      push_cast
      ring

/-- Claim C7: on every ARMED control tick in the THROTTLE zone the virtual
position accumulator advances by exactly applyCurve(u) * maxSpeed /
controlHz and its truncation is handed to the motion library as the new
target; at the default configuration the full-throttle shaped value 1
gives a per-tick advance of 4000 / 100 = 40 steps, and over 100 such
ticks the accumulator advances from 0 to 4000 steps. -/
theorem throttle_integration :
    (∀ cfg s x, s.armed = true →
      controlInterval cfg ≤ x.now - s.lastControlUpdate →
      zoneOf cfg x.filtered = Zone.THROTTLE →
      (loopStep cfg s x).virtualPos = s.virtualPos +
        applyCurve cfg.inputCurve cfg.logK ((uOf cfg x.filtered : ℚ) : ℝ) *
          (cfg.maxSpeed : ℝ) / (cfg.controlHz : ℝ) ∧
      (loopStep cfg s x).target = truncToInt ((loopStep cfg s x).virtualPos)) ∧
    applyCurve defaultConfig.inputCurve defaultConfig.logK 1 *
      (defaultConfig.maxSpeed : ℝ) / (defaultConfig.controlHz : ℝ) = 40 ∧
    (runFrom defaultConfig fullInp stArmed 100).virtualPos = 4000 := by
  refine ⟨?_, ?_, ?_⟩
  · intro cfg s x harm htick hz
    obtain ⟨hz1, hz2⟩ := (zoneOf_eq_throttle_iff cfg x.filtered).mp hz
    rw [loopStep_armed_throttle cfg s x harm htick hz1 hz2]
    constructor <;> simp
  · show applyCurve 2 20 1 * ((4000 : ℕ) : ℝ) / ((100 : ℕ) : ℝ) = 40
    rw [applyCurve_two_at_one 20 (by norm_num)]
    norm_num
  · rw [(fullInp_run 100).2.2]
    norm_num

/-- Witness for C7 on a concrete armed full-throttle tick. -/
theorem throttle_integration_witness :
    stArmed.armed = true ∧
    controlInterval defaultConfig ≤ (10 : ℕ) - stArmed.lastControlUpdate ∧
    zoneOf defaultConfig 1010 = Zone.THROTTLE ∧
    ((loopStep defaultConfig stArmed { now := 10, raw := 1023, filtered := 1010, pos := 0 }).virtualPos =
        stArmed.virtualPos +
          applyCurve defaultConfig.inputCurve defaultConfig.logK ((uOf defaultConfig 1010 : ℚ) : ℝ) *
            (defaultConfig.maxSpeed : ℝ) / (defaultConfig.controlHz : ℝ) ∧
     (loopStep defaultConfig stArmed { now := 10, raw := 1023, filtered := 1010, pos := 0 }).target =
       truncToInt ((loopStep defaultConfig stArmed
         { now := 10, raw := 1023, filtered := 1010, pos := 0 }).virtualPos)) := by
  refine ⟨rfl, by norm_num [stArmed, initSt, controlInterval, defaultConfig],
    by norm_num [zoneOf, classifyZone, scaledOf, uOf, normalizeADC, truncQ, defaultConfig], ?_⟩
  exact throttle_integration.1 defaultConfig stArmed
    { now := 10, raw := 1023, filtered := 1010, pos := 0 } rfl
    (by norm_num [stArmed, initSt, controlInterval, defaultConfig])
    (by norm_num [zoneOf, classifyZone, scaledOf, uOf, normalizeADC, truncQ, defaultConfig])

/-- Claim C9, amended: the LED level each iteration is a function of the armed
flag, the running/hold/deadband flags and the clock: UNARMED toggles
whenever at least 500 ms have elapsed since the last toggle (1 Hz square);
ARMED and running is solid ON; ARMED in the hold band toggles at 250 ms
(2 Hz square); ARMED in the stop zone shows a double pulse each second,
ON during [0,100) and [200,300) ms of each second and OFF during the
remaining 700 ms. -/
theorem led_patterns (s : St) (now : ℕ) (r h d : Bool) :
    (s.armed = false → 500 ≤ now - s.lastLED →
      updateLED s now r h d =
        { s with ledState := !s.ledState, led := !s.ledState, lastLED := now }) ∧
    (s.armed = false → now - s.lastLED < 500 → updateLED s now r h d = s) ∧
    (s.armed = true → r = true → updateLED s now r h d = { s with led := true }) ∧
    (s.armed = true → r = false → h = true → 250 ≤ now - s.lastLED →
      updateLED s now r h d =
        { s with ledState := !s.ledState, led := !s.ledState, lastLED := now }) ∧
    (s.armed = true → r = false → h = true → now - s.lastLED < 250 →
      updateLED s now r h d = s) ∧
    (s.armed = true → r = false → h = false → d = true →
      ((updateLED s now r h d).led = true ↔
        (now % 1000 < 100 ∨ (200 ≤ now % 1000 ∧ now % 1000 < 300)))) := by
  refine ⟨?_, ?_, ?_, ?_, ?_, ?_⟩
  · intro hs ht
    unfold updateLED
    rw [if_pos hs, if_pos ht]
  · intro hs ht
    unfold updateLED
    rw [if_pos hs, if_neg (not_le.mpr ht)]
  · intro hs hr
    unfold updateLED
    rw [if_neg (by simp [hs]), if_pos hr]
  · intro hs hr hh ht
    unfold updateLED
    rw [if_neg (by simp [hs]), if_neg (by simp [hr]), if_pos hh, if_pos ht]
  · intro hs hr hh ht
    unfold updateLED
    rw [if_neg (by simp [hs]), if_neg (by simp [hr]), if_pos hh, if_neg (not_le.mpr ht)]
  · intro hs hr hh hd
    unfold updateLED
    rw [if_neg (by simp [hs]), if_neg (by simp [hr]), if_neg (by simp [hh]), if_pos hd]
    split_ifs with hcond
    · simp [hcond]
    · simp [hcond]

/-- Counterexample for C9 as originally stated: in the ARMED stop zone the
LED stays OFF through the 950th millisecond of the second and the next
pulse only begins at the second boundary, so the OFF tail is 700 ms, not
approximately 600 ms (two 100 ms pulses + 100 ms gap + 600 ms OFF would
restart the pattern around 900 ms). -/
theorem led_stop_off_tail_cex :
    (updateLED stArmed 950 false false true).led = false ∧
    (updateLED stArmed 1050 false false true).led = true := by
  constructor <;> norm_num [updateLED, stArmed, initSt]

/-- Witness for C9 (amended): the unarmed 1 Hz toggle fires at 600 ms. -/
theorem led_patterns_witness :
    initSt.armed = false ∧ (500 : ℕ) ≤ 600 - initSt.lastLED ∧
    updateLED initSt 600 false false false =
      { initSt with ledState := !initSt.ledState, led := !initSt.ledState, lastLED := 600 } :=
  ⟨rfl, by norm_num [initSt],
    (led_patterns initSt 600 false false false).1 rfl (by norm_num [initSt])⟩

end LeatherPatcher
